import Mathlib

/-!
# Verification of the Marco-DeepResearch concurrency / resource-governance core

Shallow embedding, in Lean 4, of the resource governors, isolated worker
invocation, context compaction, batch scheduling and result-persistence logic
of the Marco-DeepResearch repository (`Table-as-Search` and
`Marco-DeepResearch-Family/Table-as-Search`), together with theorems that
settle the frozen specification claims.

Python `int` values are modelled as `Int`; object references are modelled as
`Nat` identifiers drawn from an allocation counter, so that sharing and
freshness of heap objects are expressible; external effects (the summary API,
the subprocess, the clock) are modelled as explicit oracle inputs.
-/

namespace MarcoDR

/-! ## Resource Governor (`GlobalSearchCounter` in
`Table-as-Search/tools/google_search_tool.py`; `GlobalVisitCounter` in
`tools/jina_visit.py` and `GlobalCreateTableCounter` in
`tools/db_table_code_v2.py` are verbatim copies of the same state and
operations, so one embedding covers all three). The Python object holds
exactly the attributes `limit`, `count` and a mutex `_lock`; the lock only
serialises the operations and has no value content, so the state is
`(limit, count)`. -/

structure GlobalSearchCounter where
  limit : Int
  count : Int
deriving Repr, DecidableEq

/-- Python `__init__(self, limit)`: `self.limit = limit; self.count = 0`. -/
def GlobalSearchCounter.init (limit : Int) : GlobalSearchCounter :=
  { limit := limit, count := 0 }

/-- Python `try_increment`: under the lock, `if self.count >= self.limit: return
False`; otherwise `self.count += 1; return True`. -/
def GlobalSearchCounter.tryIncrement (c : GlobalSearchCounter) :
    Bool × GlobalSearchCounter :=
  if c.count ≥ c.limit then (false, c)
  else (true, { c with count := c.count + 1 })

/-- Python `get_count`: returns `self.count`. -/
def GlobalSearchCounter.getCount (c : GlobalSearchCounter) : Int := c.count

/-- Python `get_remaining`: returns `max(0, self.limit - self.count)`. -/
def GlobalSearchCounter.getRemaining (c : GlobalSearchCounter) : Int :=
  max 0 (c.limit - c.count)

/-- Python `reset`: sets `self.count = 0`. -/
def GlobalSearchCounter.resetCounter (c : GlobalSearchCounter) :
    GlobalSearchCounter :=
  { c with count := 0 }

/-- The four public operations of the governor. -/
inductive GovOp
  | tryInc
  | readCount
  | readRemaining
  | doReset
deriving Repr, DecidableEq

/-- State effect of one operation (the two read operations leave the state
unchanged). -/
def GlobalSearchCounter.applyOp (c : GlobalSearchCounter) : GovOp → GlobalSearchCounter
  | .tryInc => (c.tryIncrement).2
  | .readCount => c
  | .readRemaining => c
  | .doReset => c.resetCounter

/-- Run a sequence of governor operations. -/
def GlobalSearchCounter.runOps (c : GlobalSearchCounter) :
    List GovOp → GlobalSearchCounter
  | [] => c
  | op :: rest => (c.applyOp op).runOps rest

/-- Runs `n` consecutive `try_increment` calls; returns how many of them
returned `True`, and the final state. -/
def GlobalSearchCounter.repeatTryIncrement (c : GlobalSearchCounter) :
    Nat → Nat × GlobalSearchCounter
  | 0 => (0, c)
  | n + 1 =>
    match c.tryIncrement with
    | (ok, c') =>
      match c'.repeatTryIncrement n with
      | (k, c'') => ((if ok then 1 else 0) + k, c'')

/-! ## String and association-list utilities

Executable character-level models of the Python string operations the code
relies on (`str.startswith`, substring search as in `in` / `re.search` on
literal patterns) and of `dict` reads/writes keyed by strings. -/

/-- The single-quote character (U+0027), used by several source strings. -/
def sqc : Char := Char.ofNat 39

/-- A one-character string holding `sqc`. -/
def sq : String := String.mk [sqc]

/-- The left-brace character. -/
def lbraceChar : Char := Char.ofNat 123

/-- Case-sensitive test that `pat` is a prefix of `text` (character lists). -/
def prefixMatches : List Char → List Char → Bool
  | [], _ => true
  | _ :: _, [] => false
  | p :: ps, c :: cs => p == c && prefixMatches ps cs

/-- Case-sensitive substring search: does `pat` occur anywhere in `text`? -/
def occursIn (pat : List Char) : List Char → Bool
  | [] => prefixMatches pat []
  | c :: cs => prefixMatches pat (c :: cs) || occursIn pat cs

/-- Python `s.startswith(p)`. -/
def startsWithStr (s p : String) : Bool := prefixMatches p.data s.data

/-- Python `p in s` (substring containment). -/
def strContainsSub (s pat : String) : Bool := occursIn pat.data s.data

/-- Python `sep.join(parts)`. -/
def joinWith (sep : String) : List String → String
  | [] => ""
  | [s] => s
  | s :: rest => s ++ sep ++ joinWith sep rest

/-- Python `d.get(k)` on a string-keyed dict modelled as an ordered
association list (first binding wins). -/
def assocLookup {α : Type} (l : List (String × α)) (k : String) : Option α :=
  match l with
  | [] => none
  | (k', v) :: rest => if k' = k then some v else assocLookup rest k

/-- Python `d[k] = v`: replace the first binding of `k`, or append one. -/
def assocSet {α : Type} (l : List (String × α)) (k : String) (v : α) :
    List (String × α) :=
  match l with
  | [] => [(k, v)]
  | (k', v') :: rest =>
    if k' = k then (k, v) :: rest else (k', v') :: assocSet rest k v

/-! ## Execution Context steps (`smolagents.memory` step variants plus the
`SummaryStep` dataclass defined in
`Table-as-Search/tools/context_summary_toolcalling_agent.py`). Only the
fields the governed logic reads are carried. -/

/-- Token usage attached to a model call (`TokenUsage` in
`smolagents.monitoring`). -/
structure TokenUsage where
  inputTokens : Int
  outputTokens : Int
deriving Repr, DecidableEq

/-- One entry of an Execution Context's step log. -/
inductive Step
  | task (text : String)
  | planning (plan : String) (tokenUsage : Option TokenUsage)
  | action (stepNumber : Nat) (modelOutput : String) (observations : String)
      (error : Option String) (tokenUsage : Option TokenUsage)
  | summary (originalTask : String) (summaryText : String)
      (summarizedStepsCount : Nat) (tokensBeforeSummary : Int)
deriving Repr, DecidableEq

/-- Input-token reading of a step: `step.token_usage.input_tokens` when the
step is an `ActionStep` or `PlanningStep` with non-null usage, else nothing. -/
def stepUsage : Step → Option Int
  | .planning _ u => u.map (·.inputTokens)
  | .action _ _ _ _ u => u.map (·.inputTokens)
  | _ => none

/-! ## Call Governor (`GlobalManagedAgentCounter` in
`Marco-DeepResearch-Family/Table-as-Search/run_widesearch_inference.py`).
Timestamps (`datetime.now().isoformat()`) are supplied by the caller's clock,
modelled as a `Nat` argument. -/

/-- One `call_history` entry: `{"call_number": ..., "timestamp": ...}`. -/
structure CallRecord where
  callNumber : Nat
  timestamp : Nat
deriving Repr, DecidableEq

/-- State of the per-worker-name call governor: `limits`, `counts` and
`call_history`, all dicts keyed by agent name. -/
structure GlobalManagedAgentCounter where
  limits : List (String × Nat)
  counts : List (String × Nat)
  callHistory : List (String × List CallRecord)
deriving Repr, DecidableEq

/-- Python `__init__(self, limits)`: `counts = {name: 0 for name in limits}`,
`call_history = {name: [] for name in limits}`. -/
def GlobalManagedAgentCounter.init (limits : List (String × Nat)) :
    GlobalManagedAgentCounter :=
  { limits := limits,
    counts := limits.map (fun p => (p.1, 0)),
    callHistory := limits.map (fun p => (p.1, ([] : List CallRecord))) }

/-- Python `get_count`: `self.counts.get(agent_name, 0)`. -/
def GlobalManagedAgentCounter.getCount (g : GlobalManagedAgentCounter)
    (agentName : String) : Nat :=
  (assocLookup g.counts agentName).getD 0

/-- Python `try_increment(agent_name)`: a name absent from `limits` is
admitted without touching any state; at the limit the call is denied; below
the limit the count is bumped and one `{call_number, timestamp}` entry is
appended to that name's `call_history`. -/
def GlobalManagedAgentCounter.tryIncrement (g : GlobalManagedAgentCounter)
    (agentName : String) (now : Nat) : Bool × GlobalManagedAgentCounter :=
  match assocLookup g.limits agentName with
  | none => (true, g)
  | some lim =>
    let cur := (assocLookup g.counts agentName).getD 0
    if cur ≥ lim then (false, g)
    else
      (true,
        { g with
          counts := assocSet g.counts agentName (cur + 1),
          callHistory := assocSet g.callHistory agentName
            (((assocLookup g.callHistory agentName).getD []) ++
              [⟨cur + 1, now⟩]) })

/-- Applies a sequence of `(agent_name, timestamp)` calls. -/
def GlobalManagedAgentCounter.runCalls (g : GlobalManagedAgentCounter) :
    List (String × Nat) → GlobalManagedAgentCounter
  | [] => g
  | (n, t) :: rest => ((g.tryIncrement n t).2).runCalls rest

/-- The recorded call history for one name (empty for unknown names). -/
def GlobalManagedAgentCounter.historyFor (g : GlobalManagedAgentCounter)
    (agentName : String) : List CallRecord :=
  (assocLookup g.callHistory agentName).getD []

/-- One row of `get_all_status()`. -/
structure AgentStatus where
  name : String
  used : Nat
  limit : Nat
  remaining : Nat
deriving Repr, DecidableEq

/-- Python `get_all_status()`: for every limited name, its count, limit and
`max(0, limit - count)` (the `Nat` subtraction is exactly that clamp). -/
def GlobalManagedAgentCounter.getAllStatus (g : GlobalManagedAgentCounter) :
    List AgentStatus :=
  g.limits.map (fun p => ⟨p.1, g.getCount p.1, p.2, p.2 - g.getCount p.1⟩)

/-- A status line of the denial message (`execute_tool_call`, the
`status_lines.append(...)` f-string). -/
def statusLine (st : AgentStatus) : String :=
  "  - " ++ st.name ++ ": " ++ toString st.used ++ "/" ++ toString st.limit ++
    " calls used, " ++ toString st.remaining ++ " remaining"

/-- The branch of the denial message shown when some governed worker still
has remaining budget. -/
def stillAvailableText (availableAgents : List String) : String :=
  "You can still call these managed agents: " ++
    joinWith ", " availableAgents ++
    "\nPlease use them to gather additional information if needed.\n\n"

/-- The branch of the denial message shown when every governed worker is
exhausted. -/
def allExhaustedText : String :=
  "All managed agents have reached their call limits.\n" ++
    "You can no longer delegate tasks to sub-agents.\n\n"

/-- The closing instruction of the denial message. -/
def importantClosing : String :=
  "IMPORTANT: You must now complete the task using:\n" ++
    "1. The information you have already collected\n" ++
    "2. Your own reasoning and analysis capabilities\n" ++
    "3. Any available tools (search, visit_webpage, database operations)\n\n" ++
    "Please proceed to synthesize the information and provide a final answer."

/-- Opening lines of the denial message (the `error_msg` f-string; the limit
shown comes from `get_limit`, defined for the denied — hence limited —
name). -/
def denialHeader (g : GlobalManagedAgentCounter) (toolName : String) : String :=
  "Error: Managed agent " ++ sq ++ toolName ++ sq ++
    " call limit reached.\nYou have used all " ++
    toString ((assocLookup g.limits toolName).getD 0) ++
    " allowed calls to " ++ sq ++ toolName ++ sq ++
    ".\n\nCurrent managed agent call status:\n"

/-- Python `available_agents`: the governed names with remaining budget. -/
def denialAvailable (g : GlobalManagedAgentCounter) : List String :=
  ((g.getAllStatus).filter (fun st => 0 < st.remaining)).map (·.name)

/-- Closing part of the denial message: the availability branch followed by
the instruction to finish with already-collected information. -/
def denialTail (g : GlobalManagedAgentCounter) : String :=
  "\n\n" ++
    (if (denialAvailable g).isEmpty then allExhaustedText
     else stillAvailableText (denialAvailable g)) ++
    importantClosing

/-- The full `error_msg` built by `execute_tool_call` when a delegation is
denied (lines 286-331 of `run_widesearch_inference.py`). -/
def GlobalManagedAgentCounter.denialMessage (g : GlobalManagedAgentCounter)
    (toolName : String) : String :=
  denialHeader g toolName ++
    (joinWith "\n" ((g.getAllStatus).map statusLine) ++ denialTail g)

/-- Invariant of the Call Governor: wherever a limit exists, the count
respects it. -/
def GlobalManagedAgentCounter.withinLimits
    (g : GlobalManagedAgentCounter) : Prop :=
  ∀ name lim, assocLookup g.limits name = some lim → g.getCount name ≤ lim

/-! ## Worker templates and isolated invocation
(`MemoryManagedToolCallingAgent` in `run_widesearch_inference.py`).

Python objects are shared by reference; here every heap object (the model,
each tool, the prompt-template dict, each `AgentMemory`) is named by a `Nat`
identifier, and a heap is just the allocation counter, so "brand-new object"
means "identifier not previously allocated". -/

/-- An agent instance. Configuration fields hold object identifiers (shared
by reference on copy); `memorySteps`, `stepNumber` and `scratchState`
(`self.state`) are the per-invocation mutable state. -/
structure Agent where
  name : String
  modelRef : Nat
  toolRefs : List Nat
  promptTemplatesRef : Nat
  maxSteps : Nat
  planningInterval : Nat
  memoryRef : Nat
  memorySteps : List Step
  stepNumber : Nat
  scratchState : List (String × String)
deriving Repr, DecidableEq

/-- The allocator: `next` is the first identifier not yet in use. -/
structure Heap where
  next : Nat
deriving Repr, DecidableEq

/-- Allocate a fresh object identifier. -/
def Heap.alloc (h : Heap) : Nat × Heap := (h.next, { next := h.next + 1 })

/-- Python `_create_agent_copy_for_call` (lines 206-277): build a new
instance sharing every configuration field of the template by reference,
then set `agent_copy.memory = AgentMemory(...)` (a brand-new empty memory),
`agent_copy.step_number = 0` and `agent_copy.state = {}`. -/
def createAgentCopyForCall (originalAgent : Agent) (h : Heap) : Agent × Heap :=
  ({ originalAgent with
      memoryRef := (h.alloc).1,
      memorySteps := [],
      stepNumber := 0,
      scratchState := [] }, (h.alloc).2)

/-- Result of one `execute_tool_call` dispatch. `value` is the returned
value; `Except.error` models an exception propagating out of the inner call
(the `finally` block still restores the binding). `ranCopy` records which
agent instance the dispatched call was executed against, if any. -/
structure ToolCallOutcome where
  value : Except String String
  managedAgents : List (String × Agent)
  counter : Option GlobalManagedAgentCounter
  heap : Heap
  ranCopy : Option Agent
deriving Repr

/-- The copy/substitute/run/restore body of `execute_tool_call`
(lines 335-355): create the execution copy, temporarily bind it under the
tool's name, run the call against it, and restore the original binding in a
`finally` block (so restoration happens on normal return and on exception
alike — here, on both `Except` results). -/
def dispatchWithCopy (managedAgents : List (String × Agent))
    (originalAgent : Agent) (toolName : String) (h : Heap)
    (runManaged : Agent → Except String String)
    (counterAfter : Option GlobalManagedAgentCounter) : ToolCallOutcome :=
  let agentCopy := (createAgentCopyForCall originalAgent h).1
  let substituted := assocSet managedAgents toolName agentCopy
  let res := runManaged agentCopy
  let restored := assocSet substituted toolName originalAgent
  ⟨res, restored, counterAfter, (createAgentCopyForCall originalAgent h).2,
    some agentCopy⟩

/-- Python `execute_tool_call(tool_name, arguments)` (lines 279-358).
For a managed-agent name: consult the call governor if present (returning the
instructive denial message as a normal value when the budget is exhausted),
otherwise dispatch against a fresh execution copy. Other names fall through
to the ordinary tool path (`runPlainTool`). -/
def executeToolCall (managedAgents : List (String × Agent))
    (counter : Option GlobalManagedAgentCounter) (toolName : String)
    (now : Nat) (h : Heap) (runManaged : Agent → Except String String)
    (runPlainTool : Except String String) : ToolCallOutcome :=
  match assocLookup managedAgents toolName with
  | none => ⟨runPlainTool, managedAgents, counter, h, none⟩
  | some originalAgent =>
    match counter with
    | some ctr =>
      let r := ctr.tryIncrement toolName now
      if r.1 then
        dispatchWithCopy managedAgents originalAgent toolName h runManaged
          (some r.2)
      else
        ⟨.ok (GlobalManagedAgentCounter.denialMessage r.2 toolName),
          managedAgents, some r.2, h, none⟩
    | none =>
      dispatchWithCopy managedAgents originalAgent toolName h runManaged none

/-! ## Context Compactor (`ContextSummarizationMixin` in
`Table-as-Search/tools/context_summary_toolcalling_agent.py`). The external
summary API (`request_api_detail` from the absent `my_utils` module) is an
oracle mapping each attempt number to its outcome. -/

/-- Python `_get_last_input_tokens`: walk `reversed(self.memory.steps)` and
return the first non-null `token_usage.input_tokens`; this helper walks a
list front to back. -/
def lastTokensAux : List Step → Int
  | [] => 0
  | s :: rest =>
    match stepUsage s with
    | some t => t
    | none => lastTokensAux rest

/-- Python `_get_last_input_tokens` (returns `0` when no `ActionStep` or
`PlanningStep` carries token usage). -/
def getLastInputTokens (steps : List Step) : Int := lastTokensAux steps.reverse

/-- Python `_count_action_steps`: `sum(1 for step in steps if
isinstance(step, ActionStep))`. -/
def countActionSteps (steps : List Step) : Nat :=
  (steps.filter (fun s => match s with | .action .. => true | _ => false)).length

/-- Python `_should_summarize`: `last_input_tokens > threshold and
action_step_count >= min_steps_before_summary`. -/
def shouldSummarize (steps : List Step) (contextTokenThreshold : Int)
    (minStepsBeforeSummary : Nat) : Bool :=
  decide (contextTokenThreshold < getLastInputTokens steps) &&
    decide (minStepsBeforeSummary ≤ countActionSteps steps)

/-- Outcome of one summary-API attempt, as distinguished by
`_call_summary_api_once`: a 200 response with content, a non-200 status, a
response the content cannot be extracted from, or a raised exception
(transport error). -/
inductive ApiOutcome
  | success (content : String)
  | httpError (statusCode : Int)
  | missingContent
  | transportError (message : String)
deriving Repr

/-- Python `_call_summary_api_once` composed with `_extract_api_response`:
only a 200 response whose extracted, stripped content is non-empty counts as
success; every other outcome (non-200 status, missing/empty content,
exception) is a failure. -/
def callSummaryApiOnce (o : ApiOutcome) : Option String :=
  match o with
  | .success content =>
    let stripped := content.trim
    if stripped = "" then none else some stripped
  | .httpError _ => none
  | .missingContent => none
  | .transportError _ => none

/-- The `for attempt in range(1, summary_max_retries + 1)` loop of
`_call_summary_api_with_retry`: on failure, sleep `min(5 * attempt, 30)` and
retry while `attempt < summary_max_retries`. Returns the summary (if any
attempt succeeded), the list of sleep durations, and the number of attempts
made. `fuel` is the number of loop iterations still permitted; the loop is
entered with `fuel = summary_max_retries`. -/
def retryLoop (oracle : Nat → ApiOutcome) (summaryMaxRetries : Nat)
    (attempt : Nat) : Nat → Option String × List Nat × Nat
  | 0 => (none, [], 0)
  | fuel + 1 =>
    match callSummaryApiOnce (oracle attempt) with
    | some s => (some s, [], 1)
    | none =>
      if attempt < summaryMaxRetries then
        let deeper := retryLoop oracle summaryMaxRetries (attempt + 1) fuel
        (deeper.1, min (5 * attempt) 30 :: deeper.2.1, deeper.2.2 + 1)
      else (none, [], 1)

/-- Python `_call_summary_api_with_retry`. -/
def callSummaryApiWithRetry (oracle : Nat → ApiOutcome)
    (summaryMaxRetries : Nat) : Option String × List Nat × Nat :=
  retryLoop oracle summaryMaxRetries 1 summaryMaxRetries

/-- The degraded summary text `_generate_context_summary` produces when
every retry has failed; it names the failure and carries the original task
text verbatim. -/
def degradedSummaryMessage (summaryMaxRetries : Nat) (task : String) : String :=
  "[摘要生成失败: 经过 " ++ toString summaryMaxRetries ++
    " 次重试后仍然失败]\n\n请检查网络连接和 API 服务状态。\n\n原始任务: " ++ task

/-- Python `_generate_context_summary`: the retried API summary, or the
degraded message when all retries fail. (The separate
`request_api_detail`-unavailable guard, an import-time configuration error,
is outside this model.) -/
def generateContextSummary (summaryMaxRetries : Nat) (task : String)
    (oracle : Nat → ApiOutcome) : String :=
  match callSummaryApiWithRetry oracle summaryMaxRetries with
  | (some s, _, _) => s
  | (none, _, _) => degradedSummaryMessage summaryMaxRetries task

/-- The per-invocation state `_perform_context_summarization` operates on:
the current task text and the memory's step log. -/
structure AgentCtx where
  task : String
  steps : List Step
deriving Repr, DecidableEq

/-- Python `_perform_context_summarization` (lines 556-610): snapshot
`tokens_before`, `steps_count` and `original_task`, generate the summary,
`self.memory.reset()`, then append a `SummaryStep` and a fresh `TaskStep`. -/
def performContextSummarization (ctx : AgentCtx) (summaryMaxRetries : Nat)
    (oracle : Nat → ApiOutcome) : AgentCtx :=
  let tokensBefore := getLastInputTokens ctx.steps
  let stepsCount := ctx.steps.length
  let originalTask := ctx.task
  let summaryText := generateContextSummary summaryMaxRetries ctx.task oracle
  { ctx with
    steps := [Step.summary originalTask summaryText stepsCount tokensBefore,
              Step.task ctx.task] }

/-- Specification-side reading of `last_recorded_input_tokens`: the value of
the most recent `ActionStep`/`PlanningStep` with non-null token usage
(scanning backward — i.e. every later step carries no usable usage), or `0`
when no step carries usable usage. Stated independently of the scanning
code, to be compared with `getLastInputTokens`. -/
def LastTokensSpec (steps : List Step) (t : Int) : Prop :=
  (∃ pre s suf, steps = pre ++ s :: suf ∧ stepUsage s = some t ∧
    ∀ x ∈ suf, stepUsage x = none) ∨
  (t = 0 ∧ ∀ x ∈ steps, stepUsage x = none)

/-- The compaction gate run at the top of `_step_stream` (lines 758-761):
compact exactly when `_should_summarize()` holds. -/
def stepStreamGate (ctx : AgentCtx) (contextTokenThreshold : Int)
    (minStepsBeforeSummary : Nat) (summaryMaxRetries : Nat)
    (oracle : Nat → ApiOutcome) : AgentCtx :=
  if shouldSummarize ctx.steps contextTokenThreshold minStepsBeforeSummary then
    performContextSummarization ctx summaryMaxRetries oracle
  else ctx

/-! ## Task Scheduler (`run_single_task_with_timeout` in
`Marco-DeepResearch-Family/Table-as-Search/run_widesearch_batch_inference.py`).
The child process is external: its observable responses (alive after the
deadline join, alive after terminate + grace join, queue contents, fallback
result file) are the behaviour oracle. Wall-clock readings only feed the
human-readable duration string, passed in pre-rendered. -/

/-- A task record as assembled by the scheduler (the fields the claims
read). -/
structure TaskRecord where
  instanceId : String
  taskId : String
  query : String
  answer : Option String
  response : Option String
  error : Option String
  timeout : Bool
deriving Repr, DecidableEq

/-- Observable behaviour of one worker subprocess. -/
structure ProcBehavior where
  aliveAtDeadline : Bool
  aliveAfterTerminate : Bool
  queueResult : Option TaskRecord
  resultFileRecord : Option TaskRecord
deriving Repr, DecidableEq

/-- Process-control calls the scheduler issues, in order. -/
inductive ProcAction
  | joinWait (secs : Nat)
  | terminate
  | kill
deriving Repr, DecidableEq

/-- The timeout record's `error` f-string. -/
def timeoutErrorMessage (timeoutSeconds : Nat) (durationStr : String) : String :=
  "Task timeout after " ++ toString timeoutSeconds ++
    " seconds (actual duration: " ++ durationStr ++ "s)"

/-- The `error` string of the record returned when the process exits without
reporting a result. -/
def noResultErrorMessage : String := "Process completed but returned no result"

/-- Python `run_single_task_with_timeout` (lines 537-692): join with the
deadline; if the process is still alive, terminate, join 10 s, kill if still
alive and join 5 s, and return the timeout record; otherwise take the queue
result, or the persisted result file, or the no-result record. Returns the
record and the trace of process-control actions. -/
def runSingleTaskWithTimeout (instanceId taskId query : String)
    (timeoutSeconds : Nat) (durationStr : String) (beh : ProcBehavior) :
    TaskRecord × List ProcAction :=
  if beh.aliveAtDeadline then
    let escalation :=
      if beh.aliveAfterTerminate then [ProcAction.kill, .joinWait 5] else []
    ({ instanceId := instanceId, taskId := taskId, query := query,
       answer := none, response := none,
       error := some (timeoutErrorMessage timeoutSeconds durationStr),
       timeout := true },
     [ProcAction.joinWait timeoutSeconds, .terminate, .joinWait 10] ++ escalation)
  else
    match beh.queueResult with
    | some r => (r, [ProcAction.joinWait timeoutSeconds])
    | none =>
      match beh.resultFileRecord with
      | some r =>
        ({ r with query := query, timeout := false },
         [ProcAction.joinWait timeoutSeconds])
      | none =>
        ({ instanceId := instanceId, taskId := taskId, query := query,
           answer := none, response := none,
           error := some noResultErrorMessage, timeout := false },
         [ProcAction.joinWait timeoutSeconds])

/-! ## Completed-task check (`contains_tool_tags` and `is_task_completed`
in `run_widesearch_batch_inference.py`, lines 484-534). The regex patterns
are compiled to an executable matcher over character lists; all searches run
case-insensitively (`re.IGNORECASE`; `re.MULTILINE` only affects anchors,
which no pattern uses). -/

/-- One token of a search pattern: a literal, `\s*`, or `[^q]*q`. -/
inductive PatTok
  | lit (cs : List Char)
  | wsStar
  | anyUntil (q : Char)

/-- ASCII whitespace, as matched by `\s`. -/
def isWsChar (c : Char) : Bool :=
  c = ' ' || c = '\t' || c = '\n' || c = '\r' ||
    c = Char.ofNat 11 || c = Char.ofNat 12

/-- Case-insensitive literal match; returns the rest of the text. -/
def matchLit : List Char → List Char → Option (List Char)
  | [], text => some text
  | _ :: _, [] => none
  | p :: ps, c :: cs => if p.toLower = c.toLower then matchLit ps cs else none

/-- Match a token sequence at the start of the text. -/
def matchToksAt : List PatTok → List Char → Bool
  | [], _ => true
  | .lit cs :: rest, text =>
    match matchLit cs text with
    | some remaining => matchToksAt rest remaining
    | none => false
  | .wsStar :: rest, text => matchToksAt rest (text.dropWhile isWsChar)
  | .anyUntil q :: rest, text =>
    match text.dropWhile (fun c => !(c == q)) with
    | [] => false
    | _ :: after => matchToksAt rest after

/-- Search for a token-sequence match anywhere in the text (`re.search`). -/
def searchToks (p : List PatTok) : List Char → Bool
  | [] => matchToksAt p []
  | c :: cs => matchToksAt p (c :: cs) || searchToks p cs

/-- The `tool_patterns` list of `contains_tool_tags`, in source order. -/
def toolPatterns : List (List PatTok) :=
  [[.lit "```json".data],
   [.lit "```".data, .wsStar, .lit [lbraceChar]],
   [.lit "Action:".data],
   [.lit "Thought:".data],
   [.lit ("\"name\":").data, .wsStar, .lit ['"'], .anyUntil '"'],
   [.lit (sq ++ "name" ++ sq ++ ":").data, .wsStar, .lit [sqc], .anyUntil sqc],
   [.lit (sq ++ "arguments" ++ sq ++ ":").data, .wsStar, .lit [lbraceChar]],
   [.lit ("\"arguments\":").data, .wsStar, .lit [lbraceChar]],
   [.lit "Calling tools".data]]

/-- Python `contains_tool_tags`: empty/None text has no tags; otherwise any
pattern found anywhere marks the text. -/
def containsToolTags (text : String) : Bool :=
  if text = "" then false
  else toolPatterns.any (fun p => searchToks p text.data)

/-- The per-task result artifact as the completed check sees it: absent,
unreadable (missing file / JSON error / any exception — the bare `except`
returns incomplete), or parsed with optional `answer` and `response`
fields (a JSON `null` or missing key is `none`). -/
inductive ResultFile
  | absent
  | invalid
  | parsed (answer : Option String) (response : Option String)
deriving Repr, DecidableEq

/-- Python `a or b` on optional strings: `a` unless it is falsy (`None` or
the empty string). -/
def pyOrStr (a b : Option String) : Option String :=
  match a with
  | none => b
  | some s => if s = "" then b else some s

/-- Python `is_task_completed`: the file exists, parses, holds a truthy
`answer or response` that does not start with `Error:` and carries no
residual tool-call markers. -/
def isTaskCompleted : ResultFile → Bool
  | .absent => false
  | .invalid => false
  | .parsed answer response =>
    match pyOrStr answer response with
    | none => false
    | some ans =>
      if ans = "" then false
      else if startsWithStr ans "Error:" then false
      else if containsToolTags ans then false
      else true

/-- The `skip_completed` filter of `run_batch_inference` (line 779):
`examples = [ex for ex in examples if not is_task_completed(...)]`. -/
def tasksToRun (examples : List (String × ResultFile)) (skipCompleted : Bool) :
    List (String × ResultFile) :=
  if skipCompleted then examples.filter (fun e => !(isTaskCompleted e.2))
  else examples

/-! ## Per-task inference wrapper (`run_inference` in
`run_widesearch_inference.py`, lines 873-933). The agent run is external:
it either returns a final output (possibly `None`) or raises. -/

/-- The persisted per-task result artifact (the fields the claim reads). -/
structure TaskResultArtifact where
  taskId : String
  question : String
  answer : Option String
deriving Repr, DecidableEq

/-- Python truthiness of the optional output string. -/
def pyTruthy : Option String → Bool
  | none => false
  | some s => !(s == "")

/-- Python `run_inference` tail: catch any exception from `agent.run` and
turn it into the string `"Error: ..."`; persist the result artifact only for
a truthy output that does not start with `Error:`. Returns the final output
and the artifact written (if any). -/
def runInference (agentOutcome : Except String (Option String))
    (taskId question : String) : Option String × Option TaskResultArtifact :=
  let output : Option String :=
    match agentOutcome with
    | .ok r => r
    | .error e => some ("Error: " ++ e)
  let outputStr := output.getD ""
  let answerField : Option String := if pyTruthy output then output else none
  let artifact : Option TaskResultArtifact :=
    if pyTruthy output && !(startsWithStr outputStr "Error:") then
      some { taskId := taskId, question := question, answer := answerField }
    else none
  (output, artifact)

/-! ## Theorems -/

/-- Helper: writing a key then reading it back. -/
theorem assocLookup_assocSet_self {α : Type} (l : List (String × α))
    (k : String) (v : α) : assocLookup (assocSet l k v) k = some v := by
  induction l with
  | nil => simp [assocSet, assocLookup]
  | cons p rest ih =>
    obtain ⟨k', v'⟩ := p
    by_cases h : k' = k
    · simp [assocSet, assocLookup, h]
    · simp [assocSet, assocLookup, h, ih]

/-- Helper: writing one key leaves every other key unchanged. -/
theorem assocLookup_assocSet_ne {α : Type} (l : List (String × α))
    (k k' : String) (v : α) (hne : k' ≠ k) :
    assocLookup (assocSet l k v) k' = assocLookup l k' := by
  have hne' : k ≠ k' := Ne.symm hne
  induction l with
  | nil => simp [assocSet, assocLookup, hne']
  | cons p rest ih =>
    obtain ⟨k₀, v₀⟩ := p
    by_cases h : k₀ = k
    · subst h
      simp [assocSet, assocLookup, hne']
    · simp [assocSet, assocLookup, h, ih]

/-- Helper: looking a key up in a constant-valued re-keying of a list. -/
theorem assocLookup_map_const {α β : Type} (l : List (String × α))
    (c : β) (k : String) :
    assocLookup (l.map (fun p => (p.1, c))) k = (assocLookup l k).map (fun _ => c) := by
  induction l with
  | nil => simp [assocLookup]
  | cons p rest ih =>
    by_cases h : p.1 = k
    · simp [assocLookup, h]
    · simp [assocLookup, h, ih]

/-- Helper: `runOps` keeps `0 ≤ count ≤ limit` and never changes `limit`. -/
theorem runOps_invariant (ops : List GovOp) (c : GlobalSearchCounter)
    (h0 : 0 ≤ c.count) (h1 : c.count ≤ c.limit) :
    0 ≤ (c.runOps ops).count ∧ (c.runOps ops).count ≤ (c.runOps ops).limit ∧
      (c.runOps ops).limit = c.limit := by
  induction ops generalizing c with
  | nil =>
    exact ⟨h0, h1, rfl⟩
  | cons op rest ih =>
    have hlim : 0 ≤ c.limit := le_trans h0 h1
    cases op with
    | tryInc =>
      by_cases h : c.count ≥ c.limit
      · simpa [GlobalSearchCounter.runOps, GlobalSearchCounter.applyOp,
          GlobalSearchCounter.tryIncrement, h] using ih c h0 h1
      · have := ih { c with count := c.count + 1 } (by simp; omega) (by simp; omega)
        simpa [GlobalSearchCounter.runOps, GlobalSearchCounter.applyOp,
          GlobalSearchCounter.tryIncrement, h] using this
    | readCount =>
      simpa [GlobalSearchCounter.runOps, GlobalSearchCounter.applyOp] using ih c h0 h1
    | readRemaining =>
      simpa [GlobalSearchCounter.runOps, GlobalSearchCounter.applyOp] using ih c h0 h1
    | doReset =>
      have := ih c.resetCounter (by simp [GlobalSearchCounter.resetCounter])
        (by simp [GlobalSearchCounter.resetCounter]; omega)
      simpa [GlobalSearchCounter.runOps, GlobalSearchCounter.applyOp] using this

/-- Helper: out of `n` consecutive `try_increment` calls, exactly
`min n (limit - count)⁺` succeed. -/
theorem repeatTryIncrement_successes (n : Nat) (c : GlobalSearchCounter) :
    (c.repeatTryIncrement n).1 = min n (c.limit - c.count).toNat := by
  induction n generalizing c with
  | zero => simp [GlobalSearchCounter.repeatTryIncrement]
  | succ n ih =>
    by_cases h : c.count ≥ c.limit
    · have hz : (c.limit - c.count).toNat = 0 := by omega
      simp [GlobalSearchCounter.repeatTryIncrement, GlobalSearchCounter.tryIncrement,
        h, ih, hz]
    · have := ih { c with count := c.count + 1 }
      simp only [GlobalSearchCounter.repeatTryIncrement,
        GlobalSearchCounter.tryIncrement, if_neg h] at *
      simp [this]
      omega

/-- C1: a freshly constructed governor with limit `L ≥ 0` answers each
`try_increment` by incrementing and returning `true` exactly when
`count < limit` and by returning `false` with unchanged state otherwise;
`0 ≤ count ≤ L` holds after every sequence of
`try_increment`/`get_count`/`get_remaining`/`reset` operations; and of `2L`
consecutive `try_increment` calls on a fresh governor exactly `L` return
`true`. -/
theorem C1_resource_governor_try_increment (L : Int) (hL : 0 ≤ L) :
    (∀ c : GlobalSearchCounter, c.count < c.limit →
      (c.tryIncrement).1 = true ∧ (c.tryIncrement).2.count = c.count + 1 ∧
        (c.tryIncrement).2.limit = c.limit) ∧
    (∀ c : GlobalSearchCounter, c.limit ≤ c.count →
      (c.tryIncrement).1 = false ∧ (c.tryIncrement).2 = c) ∧
    (∀ ops : List GovOp, 0 ≤ ((GlobalSearchCounter.init L).runOps ops).count ∧
      ((GlobalSearchCounter.init L).runOps ops).count ≤ L) ∧
    ((GlobalSearchCounter.init L).repeatTryIncrement (2 * L.toNat)).1 = L.toNat := by
  refine ⟨?_, ?_, ?_, ?_⟩
  · intro c hc
    simp [GlobalSearchCounter.tryIncrement, not_le.mpr hc]
  · intro c hc
    simp [GlobalSearchCounter.tryIncrement, hc]
  · intro ops
    have := runOps_invariant ops (GlobalSearchCounter.init L)
      (by simp [GlobalSearchCounter.init]) (by simp [GlobalSearchCounter.init, hL])
    rcases this with ⟨ha, hb, hcl⟩
    refine ⟨ha, ?_⟩
    rw [hcl] at hb
    simpa [GlobalSearchCounter.init] using hb
  · rw [repeatTryIncrement_successes]
    simp [GlobalSearchCounter.init]
    omega

/-- Witness for C1 at `L = 3`: six consecutive calls on a fresh governor with
limit `3` yield exactly `3` successes. -/
theorem C1_resource_governor_try_increment_witness :
    0 ≤ (3 : Int) ∧
      ((GlobalSearchCounter.init 3).repeatTryIncrement (2 * (3 : Int).toNat)).1 =
        (3 : Int).toNat :=
  ⟨by norm_num, (C1_resource_governor_try_increment 3 (by norm_num)).2.2.2⟩

/-- C2: dispatching a managed worker template through `execute_tool_call`
runs the call against a fresh execution copy whose memory is a brand-new
empty object distinct from the template's, whose step counter is `0` and
whose scratch state is empty, while the model, tool set, prompt templates
and step limits are shared by reference; and after the call — whether it
returns normally or raises — the coordinator's binding for that name is
restored to its pre-call value. -/
theorem C2_isolated_invocation_of_worker_template
    (managedAgents : List (String × Agent))
    (counter : Option GlobalManagedAgentCounter) (toolName : String)
    (now : Nat) (h : Heap) (runManaged : Agent → Except String String)
    (runPlainTool : Except String String) (originalAgent : Agent)
    (hfind : assocLookup managedAgents toolName = some originalAgent)
    (hwf : originalAgent.memoryRef < h.next)
    (hctrOk : ∀ ctr, counter = some ctr →
      (ctr.tryIncrement toolName now).1 = true) :
    ∃ agentCopy : Agent,
      (executeToolCall managedAgents counter toolName now h runManaged
          runPlainTool).ranCopy = some agentCopy ∧
      agentCopy.memoryRef ≠ originalAgent.memoryRef ∧
      agentCopy.memorySteps = [] ∧
      agentCopy.stepNumber = 0 ∧
      agentCopy.scratchState = [] ∧
      agentCopy.modelRef = originalAgent.modelRef ∧
      agentCopy.toolRefs = originalAgent.toolRefs ∧
      agentCopy.promptTemplatesRef = originalAgent.promptTemplatesRef ∧
      agentCopy.maxSteps = originalAgent.maxSteps ∧
      agentCopy.planningInterval = originalAgent.planningInterval ∧
      (executeToolCall managedAgents counter toolName now h runManaged
          runPlainTool).value = runManaged agentCopy ∧
      assocLookup (executeToolCall managedAgents counter toolName now h
          runManaged runPlainTool).managedAgents toolName =
        some originalAgent ∧
      (∀ k : String, k ≠ toolName →
        assocLookup (executeToolCall managedAgents counter toolName now h
            runManaged runPlainTool).managedAgents k =
          assocLookup managedAgents k) := by
  have hdispatch : ∀ ctrAfter : Option GlobalManagedAgentCounter,
      ∃ agentCopy : Agent,
        (dispatchWithCopy managedAgents originalAgent toolName h runManaged
            ctrAfter).ranCopy = some agentCopy ∧
        agentCopy.memoryRef ≠ originalAgent.memoryRef ∧
        agentCopy.memorySteps = [] ∧
        agentCopy.stepNumber = 0 ∧
        agentCopy.scratchState = [] ∧
        agentCopy.modelRef = originalAgent.modelRef ∧
        agentCopy.toolRefs = originalAgent.toolRefs ∧
        agentCopy.promptTemplatesRef = originalAgent.promptTemplatesRef ∧
        agentCopy.maxSteps = originalAgent.maxSteps ∧
        agentCopy.planningInterval = originalAgent.planningInterval ∧
        (dispatchWithCopy managedAgents originalAgent toolName h runManaged
            ctrAfter).value = runManaged agentCopy ∧
        assocLookup (dispatchWithCopy managedAgents originalAgent toolName h
            runManaged ctrAfter).managedAgents toolName = some originalAgent ∧
        (∀ k : String, k ≠ toolName →
          assocLookup (dispatchWithCopy managedAgents originalAgent toolName h
              runManaged ctrAfter).managedAgents k =
            assocLookup managedAgents k) := by
    intro ctrAfter
    have hma : (dispatchWithCopy managedAgents originalAgent toolName h
        runManaged ctrAfter).managedAgents =
        assocSet (assocSet managedAgents toolName
          (createAgentCopyForCall originalAgent h).1) toolName
          originalAgent := rfl
    refine ⟨(createAgentCopyForCall originalAgent h).1, rfl, ?_, rfl, rfl,
      rfl, rfl, rfl, rfl, rfl, rfl, rfl, ?_, ?_⟩
    · have hm : (createAgentCopyForCall originalAgent h).1.memoryRef =
          h.next := rfl
      rw [hm]
      omega
    · rw [hma]
      exact assocLookup_assocSet_self _ _ _
    · intro k hk
      rw [hma, assocLookup_assocSet_ne _ _ _ _ hk,
        assocLookup_assocSet_ne _ _ _ _ hk]
  cases counter with
  | none =>
    simpa [executeToolCall, hfind] using hdispatch none
  | some ctr =>
    have hc := hctrOk ctr rfl
    simpa [executeToolCall, hfind, hc] using
      hdispatch (some (ctr.tryIncrement toolName now).2)

/-- Witness for C2: a concrete coordinator with one managed template and a
previously allocated memory object. -/
theorem C2_isolated_invocation_of_worker_template_witness :
    ∃ agentCopy : Agent,
      (executeToolCall
          [("sub", Agent.mk "sub" 0 [1] 2 40 0 3 [Step.task "old"] 7
            [("k", "v")])] none "sub" 0 (Heap.mk 4)
          (fun a => Except.ok a.name) (Except.ok "plain")).ranCopy =
        some agentCopy ∧
      agentCopy.memoryRef ≠
        (Agent.mk "sub" 0 [1] 2 40 0 3 [Step.task "old"] 7
          [("k", "v")]).memoryRef ∧
      agentCopy.memorySteps = [] ∧
      agentCopy.stepNumber = 0 ∧
      agentCopy.scratchState = [] ∧
      agentCopy.modelRef =
        (Agent.mk "sub" 0 [1] 2 40 0 3 [Step.task "old"] 7 [("k", "v")]).modelRef ∧
      agentCopy.toolRefs =
        (Agent.mk "sub" 0 [1] 2 40 0 3 [Step.task "old"] 7 [("k", "v")]).toolRefs ∧
      agentCopy.promptTemplatesRef =
        (Agent.mk "sub" 0 [1] 2 40 0 3 [Step.task "old"] 7
          [("k", "v")]).promptTemplatesRef ∧
      agentCopy.maxSteps =
        (Agent.mk "sub" 0 [1] 2 40 0 3 [Step.task "old"] 7 [("k", "v")]).maxSteps ∧
      agentCopy.planningInterval =
        (Agent.mk "sub" 0 [1] 2 40 0 3 [Step.task "old"] 7
          [("k", "v")]).planningInterval ∧
      (executeToolCall
          [("sub", Agent.mk "sub" 0 [1] 2 40 0 3 [Step.task "old"] 7
            [("k", "v")])] none "sub" 0 (Heap.mk 4)
          (fun a => Except.ok a.name) (Except.ok "plain")).value =
        (fun a : Agent => Except.ok a.name) agentCopy ∧
      assocLookup (executeToolCall
          [("sub", Agent.mk "sub" 0 [1] 2 40 0 3 [Step.task "old"] 7
            [("k", "v")])] none "sub" 0 (Heap.mk 4)
          (fun a => Except.ok a.name) (Except.ok "plain")).managedAgents
          "sub" =
        some (Agent.mk "sub" 0 [1] 2 40 0 3 [Step.task "old"] 7
          [("k", "v")]) ∧
      (∀ k : String, k ≠ "sub" →
        assocLookup (executeToolCall
            [("sub", Agent.mk "sub" 0 [1] 2 40 0 3 [Step.task "old"] 7
              [("k", "v")])] none "sub" 0 (Heap.mk 4)
            (fun a => Except.ok a.name) (Except.ok "plain")).managedAgents
            k =
          assocLookup
            [("sub", Agent.mk "sub" 0 [1] 2 40 0 3 [Step.task "old"] 7
              [("k", "v")])] k) :=
  C2_isolated_invocation_of_worker_template _ none "sub" 0 (Heap.mk 4) _ _ _
    (by simp [assocLookup]) (by decide) (fun ctr hc => by cases hc)

/-- Helper: every list is a prefix of itself. -/
theorem prefixMatches_self (l : List Char) : prefixMatches l l = true := by
  induction l with
  | nil => rfl
  | cons c cs ih => simp [prefixMatches, ih]

/-- Helper: a prefix of `a` is a prefix of `a ++ b`. -/
theorem prefixMatches_append (pat a b : List Char)
    (h : prefixMatches pat a = true) : prefixMatches pat (a ++ b) = true := by
  induction pat generalizing a with
  | nil => rfl
  | cons p ps ih =>
    cases a with
    | nil => simp [prefixMatches] at h
    | cons c cs =>
      simp [prefixMatches] at h ⊢
      exact ⟨h.1, ih cs h.2⟩

/-- Helper: the empty pattern occurs in every text. -/
theorem occursIn_nil_pat (l : List Char) : occursIn [] l = true := by
  cases l <;> simp [occursIn, prefixMatches]

/-- Helper: an occurrence in `a` survives appending `b`. -/
theorem occursIn_append_left (pat a b : List Char)
    (h : occursIn pat a = true) : occursIn pat (a ++ b) = true := by
  induction a with
  | nil =>
    cases pat with
    | nil => simpa using occursIn_nil_pat b
    | cons p ps => simp [occursIn, prefixMatches] at h
  | cons c cs ih =>
    simp [occursIn] at h ⊢
    rcases h with h | h
    · exact Or.inl (prefixMatches_append _ _ b h)
    · exact Or.inr (ih h)

/-- Helper: an occurrence in `b` survives prepending `a`. -/
theorem occursIn_append_right (pat a b : List Char)
    (h : occursIn pat b = true) : occursIn pat (a ++ b) = true := by
  induction a with
  | nil => simpa using h
  | cons c cs ih =>
    simp [occursIn]
    exact Or.inr ih

/-- Helper: substring containment survives appending on the right. -/
theorem strContainsSub_append_left (a b pat : String)
    (h : strContainsSub a pat = true) : strContainsSub (a ++ b) pat = true := by
  simp only [strContainsSub, String.data_append]
  exact occursIn_append_left _ _ _ h

/-- Helper: substring containment survives prepending on the left. -/
theorem strContainsSub_append_right (a b pat : String)
    (h : strContainsSub b pat = true) : strContainsSub (a ++ b) pat = true := by
  simp only [strContainsSub, String.data_append]
  exact occursIn_append_right _ _ _ h

/-- Helper: every string contains itself. -/
theorem strContainsSub_self (s : String) : strContainsSub s s = true := by
  cases hs : s.data with
  | nil => simp [strContainsSub, hs, occursIn, prefixMatches]
  | cons c cs => simp [strContainsSub, hs, occursIn, prefixMatches_self]

/-- Helper: a joined list contains each of its parts. -/
theorem joinWith_contains (sep : String) (l : List String) (s : String)
    (hs : s ∈ l) : strContainsSub (joinWith sep l) s = true := by
  induction l with
  | nil => cases hs
  | cons x rest ih =>
    cases rest with
    | nil =>
      rcases List.mem_singleton.mp hs with rfl
      exact strContainsSub_self _
    | cons y rest' =>
      rcases List.mem_cons.mp hs with rfl | hs'
      · exact strContainsSub_append_left _ _ _
          (strContainsSub_append_left _ _ _ (strContainsSub_self s))
      · exact strContainsSub_append_right _ _ _ (ih hs')

/-- Helper: a denied `try_increment` leaves the governor unchanged. -/
theorem tryIncrement_denied_unchanged (g : GlobalManagedAgentCounter)
    (name : String) (now : Nat)
    (h : (g.tryIncrement name now).1 = false) :
    (g.tryIncrement name now).2 = g := by
  unfold GlobalManagedAgentCounter.tryIncrement at *
  cases hl : assocLookup g.limits name with
  | none => rfl
  | some lim =>
    rw [hl] at h
    by_cases hc : (assocLookup g.counts name).getD 0 ≥ lim
    · simp [hc]
    · simp [hc] at h

/-- Helper: a fresh Call Governor satisfies the limits invariant. -/
theorem init_withinLimits (limits : List (String × Nat)) :
    (GlobalManagedAgentCounter.init limits).withinLimits := by
  intro name lim _
  unfold GlobalManagedAgentCounter.getCount GlobalManagedAgentCounter.init
  rw [assocLookup_map_const]
  cases assocLookup limits name <;> simp

/-- Helper: `try_increment` preserves the limits invariant. -/
theorem tryIncrement_withinLimits (g : GlobalManagedAgentCounter)
    (name : String) (now : Nat) (h : g.withinLimits) :
    ((g.tryIncrement name now).2).withinLimits := by
  unfold GlobalManagedAgentCounter.tryIncrement
  cases hl : assocLookup g.limits name with
  | none => simpa using h
  | some lim =>
    by_cases hc : (assocLookup g.counts name).getD 0 ≥ lim
    · simpa [hc] using h
    · simp only [hc, if_false]
      intro name' lim' hl'
      unfold GlobalManagedAgentCounter.getCount at *
      by_cases hn : name' = name
      · subst hn
        rw [hl] at hl'
        injection hl' with hlim
        subst hlim
        simp only []
        rw [assocLookup_assocSet_self]
        simp
        omega
      · simp only []
        rw [assocLookup_assocSet_ne _ _ _ _ hn]
        exact h name' lim' hl'

/-- Helper: the invariant holds after any sequence of calls on a fresh
governor. -/
theorem runCalls_withinLimits (limits : List (String × Nat))
    (calls : List (String × Nat)) :
    ((GlobalManagedAgentCounter.init limits).runCalls calls).withinLimits := by
  have hstep : ∀ (cs : List (String × Nat)) (g : GlobalManagedAgentCounter),
      g.withinLimits → (g.runCalls cs).withinLimits := by
    intro cs
    induction cs with
    | nil => intro g hg; exact hg
    | cons c rest ih =>
      intro g hg
      exact ih _ (tryIncrement_withinLimits g c.1 c.2 hg)
  exact hstep calls _ (init_withinLimits limits)

/-- Helper: the denial message carries the status line of every governed
worker. -/
theorem denialMessage_contains_statusLine (g : GlobalManagedAgentCounter)
    (toolName : String) (st : AgentStatus) (hst : st ∈ g.getAllStatus) :
    strContainsSub (g.denialMessage toolName) (statusLine st) = true := by
  unfold GlobalManagedAgentCounter.denialMessage
  apply strContainsSub_append_right
  apply strContainsSub_append_left
  exact joinWith_contains _ _ _ (List.mem_map_of_mem statusLine hst)

/-- Helper: the denial message always carries the instruction to finish the
task with already-collected information. -/
theorem denialMessage_contains_instruction (g : GlobalManagedAgentCounter)
    (toolName : String) :
    strContainsSub (g.denialMessage toolName)
      "IMPORTANT: You must now complete the task using" = true := by
  unfold GlobalManagedAgentCounter.denialMessage denialTail
  apply strContainsSub_append_right
  apply strContainsSub_append_right
  apply strContainsSub_append_right
  have : strContainsSub importantClosing
      "IMPORTANT: You must now complete the task using" = true := by decide
  exact this

/-- C5: the Call Governor admits names absent from `limits` without touching
any state; for a limited name the first `k` calls succeed and later calls are
denied, so `counts[name] ≤ limits[name]` always holds (shown for every call
sequence on a fresh governor, and concretely for `limits = {"A": 2}` with
three sequential calls: success, success, denial); and a denied delegation is
answered by returning the instructive denial message — enumerating every
governed worker's used/limit/remaining budgets and directing the coordinator
to finish with already-collected information — as a normal value, not by
raising. -/
theorem C5_call_governor_budget_and_denial :
    (∀ (g : GlobalManagedAgentCounter) (name : String) (now : Nat),
      assocLookup g.limits name = none → g.tryIncrement name now = (true, g)) ∧
    (∀ (limits calls : List (String × Nat)) (name : String) (lim : Nat),
      assocLookup limits name = some lim →
      ((GlobalManagedAgentCounter.init limits).runCalls calls).getCount name ≤
        lim) ∧
    (((GlobalManagedAgentCounter.init [("A", 2)]).tryIncrement "A" 0).1 =
        true ∧
      ((((GlobalManagedAgentCounter.init [("A", 2)]).tryIncrement "A"
          0).2).tryIncrement "A" 1).1 = true ∧
      ((((((GlobalManagedAgentCounter.init [("A", 2)]).tryIncrement "A"
          0).2).tryIncrement "A" 1).2).tryIncrement "A" 2).1 = false ∧
      ((((((GlobalManagedAgentCounter.init [("A", 2)]).tryIncrement "A"
          0).2).tryIncrement "A" 1).2).tryIncrement "A" 2).2.getCount "A" =
        2) ∧
    (∀ (managedAgents : List (String × Agent))
      (ctr : GlobalManagedAgentCounter) (toolName : String) (now : Nat)
      (h : Heap) (runManaged : Agent → Except String String)
      (runPlainTool : Except String String) (originalAgent : Agent),
      assocLookup managedAgents toolName = some originalAgent →
      (ctr.tryIncrement toolName now).1 = false →
      executeToolCall managedAgents (some ctr) toolName now h runManaged
          runPlainTool =
        ⟨Except.ok (ctr.denialMessage toolName), managedAgents, some ctr, h,
          none⟩) ∧
    (∀ (g : GlobalManagedAgentCounter) (toolName : String)
      (st : AgentStatus), st ∈ g.getAllStatus →
      strContainsSub (g.denialMessage toolName) (statusLine st) = true) ∧
    (∀ (g : GlobalManagedAgentCounter) (toolName : String),
      strContainsSub (g.denialMessage toolName)
        "IMPORTANT: You must now complete the task using" = true) := by
  refine ⟨?_, ?_, ?_, ?_, ?_, ?_⟩
  · intro g name now hl
    unfold GlobalManagedAgentCounter.tryIncrement
    rw [hl]
  · intro limits calls name lim hl
    exact runCalls_withinLimits limits calls name lim (by
      have : ((GlobalManagedAgentCounter.init limits).runCalls calls).limits =
          limits := by
        have hlim : ∀ (cs : List (String × Nat))
            (g : GlobalManagedAgentCounter),
            (g.runCalls cs).limits = g.limits := by
          intro cs
          induction cs with
          | nil => intro g; rfl
          | cons c rest ih =>
            intro g
            rw [show g.runCalls (c :: rest) =
              ((g.tryIncrement c.1 c.2).2).runCalls rest from rfl, ih]
            unfold GlobalManagedAgentCounter.tryIncrement
            cases assocLookup g.limits c.1 with
            | none => rfl
            | some l =>
              by_cases hc : (assocLookup g.counts c.1).getD 0 ≥ l
              · simp [hc]
              · simp [hc]
        exact hlim calls _
      rw [this]
      exact hl)
  · exact ⟨by decide, by decide, by decide, by decide⟩
  · intro managedAgents ctr toolName now h runManaged runPlainTool
      originalAgent hfind hdenied
    have hunch := tryIncrement_denied_unchanged ctr toolName now hdenied
    unfold executeToolCall
    rw [hfind]
    simp only [hdenied, hunch, Bool.false_eq_true, if_false]
  · exact denialMessage_contains_statusLine
  · exact denialMessage_contains_instruction

/-- Witness for C5: an unlimited name is admitted with unchanged state, and
the invariant holds after a concrete call sequence on `{"A": 2}`. -/
theorem C5_call_governor_budget_and_denial_witness :
    (GlobalManagedAgentCounter.init [("A", 2)]).tryIncrement "B" 5 =
      (true, GlobalManagedAgentCounter.init [("A", 2)]) ∧
    ((GlobalManagedAgentCounter.init [("A", 2)]).runCalls
        [("A", 0), ("A", 1), ("A", 2)]).getCount "A" ≤ 2 :=
  ⟨C5_call_governor_budget_and_denial.1 _ "B" 5 (by decide),
    C5_call_governor_budget_and_denial.2.1 [("A", 2)]
      [("A", 0), ("A", 1), ("A", 2)] "A" 2 (by decide)⟩

/-- Helper: the call-number sequence invariant — each name's recorded call
numbers are exactly `1..count` — is preserved by `try_increment`. -/
theorem tryIncrement_history_numbers (g : GlobalManagedAgentCounter)
    (nm : String) (now : Nat)
    (h : ∀ name, (g.historyFor name).map CallRecord.callNumber =
      List.range' 1 (g.getCount name)) :
    ∀ name, (((g.tryIncrement nm now).2).historyFor name).map
        CallRecord.callNumber =
      List.range' 1 (((g.tryIncrement nm now).2).getCount name) := by
  intro name
  unfold GlobalManagedAgentCounter.tryIncrement
  cases hl : assocLookup g.limits nm with
  | none => exact h name
  | some lim =>
    by_cases hc : (assocLookup g.counts nm).getD 0 ≥ lim
    · simpa [hc] using h name
    · simp only [hc, if_false]
      unfold GlobalManagedAgentCounter.historyFor
        GlobalManagedAgentCounter.getCount at *
      by_cases hn : name = nm
      · subst hn
        rw [assocLookup_assocSet_self, assocLookup_assocSet_self]
        simp only [Option.getD_some, List.map_append, h name]
        have hr := @List.range'_concat 1 1 ((assocLookup g.counts name).getD 0)
        simp at hr
        rw [hr]
        simp [Nat.add_comm]
      · rw [assocLookup_assocSet_ne _ _ _ _ hn,
          assocLookup_assocSet_ne _ _ _ _ hn]
        exact h name

/-- Helper: a fresh Call Governor has empty histories and zero counts. -/
theorem init_history_numbers (limits : List (String × Nat)) :
    ∀ name, (((GlobalManagedAgentCounter.init limits).historyFor name).map
        CallRecord.callNumber) =
      List.range' 1 ((GlobalManagedAgentCounter.init limits).getCount name) := by
  intro name
  unfold GlobalManagedAgentCounter.historyFor GlobalManagedAgentCounter.getCount
    GlobalManagedAgentCounter.init
  rw [assocLookup_map_const, assocLookup_map_const]
  cases assocLookup limits name <;> simp

/-- Helper: the call-number sequence invariant after any call sequence. -/
theorem runCalls_history_numbers (limits : List (String × Nat))
    (calls : List (String × Nat)) :
    ∀ name, ((((GlobalManagedAgentCounter.init limits).runCalls
        calls).historyFor name).map CallRecord.callNumber) =
      List.range' 1
        (((GlobalManagedAgentCounter.init limits).runCalls
          calls).getCount name) := by
  have hstep : ∀ (cs : List (String × Nat)) (g : GlobalManagedAgentCounter),
      (∀ name, (g.historyFor name).map CallRecord.callNumber =
        List.range' 1 (g.getCount name)) →
      ∀ name, ((g.runCalls cs).historyFor name).map CallRecord.callNumber =
        List.range' 1 ((g.runCalls cs).getCount name) := by
    intro cs
    induction cs with
    | nil => intro g hg; exact hg
    | cons c rest ih =>
      intro g hg
      exact ih _ (tryIncrement_history_numbers g c.1 c.2 hg)
  exact hstep calls _ (init_history_numbers limits)

/-- C9 counterexample: the search governor (`GlobalSearchCounter`, and
identically the visit and table-creation governors) holds only `limit` and
`count`, so no history observation of its state can start empty and gain a
`{sequence_number, timestamp}` entry on every successful `try_increment`:
the state after a success made at time `0` equals the state after a success
made at time `1`, but the claimed entries would differ. -/
theorem C9_counterexample_search_governor_has_no_history :
    ¬ ∃ hist : GlobalSearchCounter → List CallRecord,
        hist (GlobalSearchCounter.init 100) = [] ∧
        (∀ (c : GlobalSearchCounter) (t : Nat), c.count < c.limit →
          hist ((c.tryIncrement).2) =
            hist c ++ [⟨(hist c).length + 1, t⟩]) := by
  rintro ⟨hist, h0, hstep⟩
  have h1 := hstep (GlobalSearchCounter.init 100) 0 (by decide)
  have h2 := hstep (GlobalSearchCounter.init 100) 1 (by decide)
  rw [h0] at h1 h2
  rw [h1] at h2
  simp at h2

/-- C9 amended: the search/visit/table-creation governors keep only `limit`
and `count` (a `try_increment` call changes at most `count`, recording
nothing else); only the Call Governor (`GlobalManagedAgentCounter`) keeps
per-name call histories, where each successful `try_increment` on a limited
name appends exactly one `{call_number, timestamp}` entry, so after any call
sequence each name's history lists the call numbers `1..count` in order. -/
theorem C9_amended_history_only_in_call_governor :
    (∀ c : GlobalSearchCounter,
      (c.tryIncrement).2.limit = c.limit ∧
      ((c.tryIncrement).2.count = c.count ∨
        (c.tryIncrement).2.count = c.count + 1)) ∧
    (∀ (g : GlobalManagedAgentCounter) (name : String) (now lim : Nat),
      assocLookup g.limits name = some lim → g.getCount name < lim →
      ((g.tryIncrement name now).2).historyFor name =
        g.historyFor name ++ [⟨g.getCount name + 1, now⟩]) ∧
    (∀ (limits calls : List (String × Nat)) (name : String),
      ((((GlobalManagedAgentCounter.init limits).runCalls
          calls).historyFor name).map CallRecord.callNumber) =
        List.range' 1
          (((GlobalManagedAgentCounter.init limits).runCalls
            calls).getCount name)) := by
  refine ⟨?_, ?_, ?_⟩
  · intro c
    unfold GlobalSearchCounter.tryIncrement
    by_cases h : c.count ≥ c.limit
    · simp [h]
    · simp [h]
  · intro g name now lim hl hc
    unfold GlobalManagedAgentCounter.tryIncrement
      GlobalManagedAgentCounter.historyFor
      GlobalManagedAgentCounter.getCount at *
    rw [hl]
    have hc' : ¬ ((assocLookup g.counts name).getD 0 ≥ lim) := by omega
    simp only [hc', if_false]
    rw [assocLookup_assocSet_self]
    simp
  · exact fun limits calls name => runCalls_history_numbers limits calls name

/-- Witness for C9's amended claim: a first successful call on
`limits = {"A": 2}` at time `7` appends exactly the entry `{1, 7}`. -/
theorem C9_amended_history_only_in_call_governor_witness :
    (((GlobalManagedAgentCounter.init [("A", 2)]).tryIncrement "A"
        7).2).historyFor "A" =
      (GlobalManagedAgentCounter.init [("A", 2)]).historyFor "A" ++
        [⟨(GlobalManagedAgentCounter.init [("A", 2)]).getCount "A" + 1, 7⟩] :=
  C9_amended_history_only_in_call_governor.2.1
    (GlobalManagedAgentCounter.init [("A", 2)]) "A" 7 2 (by decide) (by decide)

/-- C3: context compaction replaces the step log with exactly two entries —
a `SummaryStep` carrying the pre-compaction task text verbatim, the
generated summary text, the pre-compaction step count and the last recorded
input-token count — followed by a fresh `TaskStep` with the same task text;
nothing else remains. -/
theorem C3_compaction_resets_step_log (ctx : AgentCtx)
    (summaryMaxRetries : Nat) (oracle : Nat → ApiOutcome) :
    (performContextSummarization ctx summaryMaxRetries oracle).task =
      ctx.task ∧
    (performContextSummarization ctx summaryMaxRetries oracle).steps =
      [Step.summary ctx.task
        (generateContextSummary summaryMaxRetries ctx.task oracle)
        ctx.steps.length (getLastInputTokens ctx.steps),
       Step.task ctx.task] ∧
    (performContextSummarization ctx summaryMaxRetries oracle).steps.length =
      2 :=
  ⟨rfl, rfl, rfl⟩

/-- Helper: `lastTokensAux` returns the first usable usage of the list, or
`0` when there is none. -/
theorem lastTokensAux_spec (l : List Step) :
    (∃ pre a suf, l = pre ++ a :: suf ∧ (∀ x ∈ pre, stepUsage x = none) ∧
      stepUsage a = some (lastTokensAux l)) ∨
    (lastTokensAux l = 0 ∧ ∀ x ∈ l, stepUsage x = none) := by
  induction l with
  | nil => exact Or.inr ⟨rfl, by simp⟩
  | cons s rest ih =>
    cases hu : stepUsage s with
    | some t =>
      exact Or.inl ⟨[], s, rest, rfl, by simp, by simp [lastTokensAux, hu]⟩
    | none =>
      have hl : lastTokensAux (s :: rest) = lastTokensAux rest := by
        simp [lastTokensAux, hu]
      rcases ih with ⟨pre, a, suf, heq, hpre, ha⟩ | ⟨h0, hall⟩
      · left
        refine ⟨s :: pre, a, suf, by rw [heq, List.cons_append], ?_,
          by rw [hl]; exact ha⟩
        intro x hx
        rcases List.mem_cons.mp hx with rfl | hx'
        · exact hu
        · exact hpre x hx'
      · right
        refine ⟨by rw [hl]; exact h0, ?_⟩
        intro x hx
        rcases List.mem_cons.mp hx with rfl | hx'
        · exact hu
        · exact hall x hx'

/-- Helper: the characterisation determines `lastTokensAux` uniquely. -/
theorem lastTokensAux_unique (l : List Step) (t : Int)
    (h : (∃ pre a suf, l = pre ++ a :: suf ∧
        (∀ x ∈ pre, stepUsage x = none) ∧ stepUsage a = some t) ∨
      (t = 0 ∧ ∀ x ∈ l, stepUsage x = none)) :
    lastTokensAux l = t := by
  induction l with
  | nil =>
    rcases h with ⟨pre, a, suf, heq, _, _⟩ | ⟨h0, _⟩
    · simp at heq
    · simp [lastTokensAux, h0]
  | cons s rest ih =>
    rcases h with ⟨pre, a, suf, heq, hpre, ha⟩ | ⟨h0, hall⟩
    · cases pre with
      | nil =>
        rw [List.nil_append] at heq
        injection heq with h1 h2
        subst h1
        simp [lastTokensAux, ha]
      | cons p ps =>
        rw [List.cons_append] at heq
        injection heq with h1 h2
        have hs : stepUsage s = none := by
          rw [h1]
          exact hpre p (by simp)
        simp only [lastTokensAux, hs]
        exact ih (Or.inl ⟨ps, a, suf, h2,
          fun x hx => hpre x (by simp [hx]), ha⟩)
    · have hs : stepUsage s = none := hall s (by simp)
      simp only [lastTokensAux, hs]
      exact ih (Or.inr ⟨h0, fun x hx => hall x (by simp [hx])⟩)

/-- Helper: `_get_last_input_tokens` satisfies the backward-scanning
specification. -/
theorem getLastInputTokens_spec (steps : List Step) :
    LastTokensSpec steps (getLastInputTokens steps) := by
  unfold getLastInputTokens LastTokensSpec
  rcases lastTokensAux_spec steps.reverse with
    ⟨pre, a, suf, heq, hpre, ha⟩ | ⟨h0, hall⟩
  · left
    refine ⟨suf.reverse, a, pre.reverse, ?_, ha, ?_⟩
    · have hrev : steps = (steps.reverse).reverse :=
        (List.reverse_reverse steps).symm
      rw [hrev, heq]
      simp
    · intro x hx
      exact hpre x (List.mem_reverse.mp hx)
  · right
    exact ⟨h0, fun x hx => hall x (List.mem_reverse.mpr hx)⟩

/-- Helper: any value satisfying the backward-scanning specification equals
`_get_last_input_tokens`. -/
theorem getLastInputTokens_unique (steps : List Step) (t : Int)
    (h : LastTokensSpec steps t) : getLastInputTokens steps = t := by
  unfold getLastInputTokens
  apply lastTokensAux_unique
  rcases h with ⟨pre, s, suf, heq, hs, hsuf⟩ | ⟨h0, hall⟩
  · left
    refine ⟨suf.reverse, s, pre.reverse, ?_, ?_, hs⟩
    · rw [heq]
      simp
    · intro x hx
      exact hsuf x (List.mem_reverse.mp hx)
  · right
    exact ⟨h0, fun x hx => hall x (List.mem_reverse.mp hx)⟩

/-- C4: the compaction gate run before each new step triggers exactly when
the input-token count of the most recent `ActionStep`/`PlanningStep` with
non-null token usage (backward scan) strictly exceeds the threshold and the
`ActionStep` count reaches `min_steps_before_summary`; when no step carries
usable token usage the condition is false for every non-negative threshold
and the gate leaves the context untouched. -/
theorem C4_compaction_trigger_condition (steps : List Step) (threshold : Int)
    (minSteps : Nat) :
    (shouldSummarize steps threshold minSteps = true ↔
      (∃ t : Int, LastTokensSpec steps t ∧ threshold < t ∧
        minSteps ≤ countActionSteps steps)) ∧
    ((∀ x ∈ steps, stepUsage x = none) → 0 ≤ threshold →
      shouldSummarize steps threshold minSteps = false) ∧
    ((∀ x ∈ steps, stepUsage x = none) → 0 ≤ threshold →
      ∀ (summaryMaxRetries : Nat) (oracle : Nat → ApiOutcome) (task : String),
        stepStreamGate ⟨task, steps⟩ threshold minSteps summaryMaxRetries
          oracle = ⟨task, steps⟩) := by
  have hfalse : (∀ x ∈ steps, stepUsage x = none) → 0 ≤ threshold →
      shouldSummarize steps threshold minSteps = false := by
    intro hall hth
    have h0 : getLastInputTokens steps = 0 :=
      getLastInputTokens_unique steps 0 (Or.inr ⟨rfl, hall⟩)
    have hnlt : ¬ (threshold < (0 : Int)) := not_lt.mpr hth
    unfold shouldSummarize
    simp [h0, hnlt]
  refine ⟨?_, hfalse, ?_⟩
  · constructor
    · intro h
      unfold shouldSummarize at h
      simp only [Bool.and_eq_true, decide_eq_true_eq] at h
      exact ⟨getLastInputTokens steps, getLastInputTokens_spec steps, h.1,
        h.2⟩
    · rintro ⟨t, hspec, hlt, hcount⟩
      have ht := getLastInputTokens_unique steps t hspec
      unfold shouldSummarize
      simp [ht, hlt, hcount]
  · intro hall hth summaryMaxRetries oracle task
    unfold stepStreamGate
    rw [hfalse hall hth]
    simp

/-- Witness for C4: a log whose only action step has null token usage never
triggers compaction at the default threshold. -/
theorem C4_compaction_trigger_condition_witness :
    shouldSummarize [Step.task "t", Step.action 1 "m" "o" none none] 80000
      5 = false :=
  (C4_compaction_trigger_condition
      [Step.task "t", Step.action 1 "m" "o" none none] 80000 5).2.1
    (by decide) (by decide)

/-- Helper: within the retry loop, at most `fuel` attempts are made (at
least one when fuel remains), and the sleeps between consecutive failed
attempts are exactly `min(5 * attempt, 30)` for the attempts that failed and
were retried. -/
theorem retryLoop_spec (oracle : Nat → ApiOutcome) (summaryMaxRetries : Nat) :
    ∀ (fuel attempt : Nat), attempt + fuel = summaryMaxRetries + 1 →
    1 ≤ attempt →
    (retryLoop oracle summaryMaxRetries attempt fuel).2.2 ≤ fuel ∧
    (1 ≤ fuel → 1 ≤ (retryLoop oracle summaryMaxRetries attempt fuel).2.2) ∧
    (retryLoop oracle summaryMaxRetries attempt fuel).2.1 =
      (List.range' attempt
        ((retryLoop oracle summaryMaxRetries attempt fuel).2.2 - 1)).map
        (fun a => min (5 * a) 30) := by
  intro fuel
  induction fuel with
  | zero =>
    intro attempt _ _
    exact ⟨Nat.le_refl 0, by omega, by simp [retryLoop]⟩
  | succ f ih =>
    intro attempt hsum h1
    cases hc : callSummaryApiOnce (oracle attempt) with
    | some s =>
      refine ⟨?_, ?_, ?_⟩ <;> simp [retryLoop, hc]
    | none =>
      by_cases hlt : attempt < summaryMaxRetries
      · have hf : 1 ≤ f := by omega
        have hrec := ih (attempt + 1) (by omega) (by omega)
        have hused : 1 ≤ (retryLoop oracle summaryMaxRetries (attempt + 1)
            f).2.2 := hrec.2.1 hf
        refine ⟨?_, ?_, ?_⟩
        · simp only [retryLoop, hc, hlt, if_true]
          have := hrec.1
          omega
        · intro _
          simp only [retryLoop, hc, hlt, if_true]
          omega
        · simp only [retryLoop, hc, hlt, if_true]
          rw [hrec.2.2]
          have hr : List.range' attempt
              ((retryLoop oracle summaryMaxRetries (attempt + 1) f).2.2 + 1 -
                1) =
              attempt :: List.range' (attempt + 1)
                ((retryLoop oracle summaryMaxRetries (attempt + 1) f).2.2 -
                  1) := by
            have hs := @List.range'_succ attempt
              ((retryLoop oracle summaryMaxRetries (attempt + 1) f).2.2 - 1) 1
            simp at hs
            rw [show (retryLoop oracle summaryMaxRetries (attempt + 1)
                f).2.2 + 1 - 1 =
              ((retryLoop oracle summaryMaxRetries (attempt + 1) f).2.2 - 1) +
                1 from by omega]
            exact hs
          rw [hr]
          simp
      · refine ⟨?_, ?_, ?_⟩ <;> simp [retryLoop, hc, hlt]

/-- C7: summary generation makes at most `summary_max_retries` attempts,
sleeping `min(5 * attempt, 30)` between consecutive failed attempts (a
non-200 response, missing content and a transport exception all count as
failures); and when every attempt fails, compaction still proceeds with a
degraded summary that names the failure and ends with the original task text
verbatim. -/
theorem C7_summary_retry_policy_and_degradation (oracle : Nat → ApiOutcome)
    (summaryMaxRetries : Nat) (task : String) :
    (callSummaryApiWithRetry oracle summaryMaxRetries).2.2 ≤
      summaryMaxRetries ∧
    (callSummaryApiWithRetry oracle summaryMaxRetries).2.1 =
      (List.range' 1
        ((callSummaryApiWithRetry oracle summaryMaxRetries).2.2 - 1)).map
        (fun a => min (5 * a) 30) ∧
    (∀ code : Int, callSummaryApiOnce (.httpError code) = none) ∧
    callSummaryApiOnce .missingContent = none ∧
    (∀ m : String, callSummaryApiOnce (.transportError m) = none) ∧
    ((callSummaryApiWithRetry oracle summaryMaxRetries).1 = none →
      (∀ t : String, generateContextSummary summaryMaxRetries t oracle =
        degradedSummaryMessage summaryMaxRetries t) ∧
      (∃ a mid : String,
        degradedSummaryMessage summaryMaxRetries task = a ++ mid ++ task ∧
        strContainsSub a "摘要生成失败" = true) ∧
      (∀ ctx : AgentCtx,
        (performContextSummarization ctx summaryMaxRetries oracle).steps =
          [Step.summary ctx.task
            (degradedSummaryMessage summaryMaxRetries ctx.task)
            ctx.steps.length (getLastInputTokens ctx.steps),
           Step.task ctx.task])) := by
  have hspec := retryLoop_spec oracle summaryMaxRetries summaryMaxRetries 1
    (by omega) (Nat.le_refl 1)
  refine ⟨hspec.1, hspec.2.2, fun code => rfl, rfl, fun m => rfl, ?_⟩
  intro hnone
  have hgen : ∀ t : String, generateContextSummary summaryMaxRetries t
      oracle = degradedSummaryMessage summaryMaxRetries t := by
    intro t
    unfold generateContextSummary
    rcases hma : callSummaryApiWithRetry oracle summaryMaxRetries with
      ⟨r, sl, u⟩
    rw [hma] at hnone
    simp only at hnone
    subst hnone
    rfl
  refine ⟨hgen, ?_, ?_⟩
  · refine ⟨"[摘要生成失败: 经过 " ++ toString summaryMaxRetries,
      " 次重试后仍然失败]\n\n请检查网络连接和 API 服务状态。\n\n原始任务: ", rfl,
      strContainsSub_append_left _ _ _ (by decide)⟩
  · intro ctx
    calc (performContextSummarization ctx summaryMaxRetries oracle).steps =
        [Step.summary ctx.task
          (generateContextSummary summaryMaxRetries ctx.task oracle)
          ctx.steps.length (getLastInputTokens ctx.steps),
         Step.task ctx.task] := rfl
      _ = [Step.summary ctx.task
          (degradedSummaryMessage summaryMaxRetries ctx.task)
          ctx.steps.length (getLastInputTokens ctx.steps),
         Step.task ctx.task] := by rw [hgen ctx.task]

/-- Witness for C7: with an always-failing transport oracle and the default
five retries, the degraded summary path is taken and the sleeps are
`5, 10, 15, 20`. -/
theorem C7_summary_retry_policy_and_degradation_witness :
    (callSummaryApiWithRetry (fun _ => ApiOutcome.transportError "boom")
        5).2.2 ≤ 5 ∧
    (∀ t : String, generateContextSummary 5 t
        (fun _ => ApiOutcome.transportError "boom") =
      degradedSummaryMessage 5 t) :=
  ⟨(C7_summary_retry_policy_and_degradation
      (fun _ => ApiOutcome.transportError "boom") 5 "task").1,
    ((C7_summary_retry_policy_and_degradation
      (fun _ => ApiOutcome.transportError "boom") 5 "task").2.2.2.2.2
      (by decide)).1⟩

/-- C6: when the worker process is still alive at the deadline, the
scheduler terminates it, waits a bounded grace period, kills it if it is
still alive, and returns a record with `timeout = true`, null answer and
response, and an error naming the timeout — a different record from the one
produced when the process exits without reporting a result, whose error says
the process returned no result and whose timeout flag is false. -/
theorem C6_scheduler_timeout_termination (instanceId taskId query : String)
    (timeoutSeconds : Nat) (durationStr : String) (beh : ProcBehavior)
    (halive : beh.aliveAtDeadline = true) :
    (runSingleTaskWithTimeout instanceId taskId query timeoutSeconds
        durationStr beh).2 =
      [ProcAction.joinWait timeoutSeconds, .terminate, .joinWait 10] ++
        (if beh.aliveAfterTerminate then [ProcAction.kill, .joinWait 5]
         else []) ∧
    (runSingleTaskWithTimeout instanceId taskId query timeoutSeconds
        durationStr beh).1.timeout = true ∧
    (runSingleTaskWithTimeout instanceId taskId query timeoutSeconds
        durationStr beh).1.answer = none ∧
    (runSingleTaskWithTimeout instanceId taskId query timeoutSeconds
        durationStr beh).1.response = none ∧
    (runSingleTaskWithTimeout instanceId taskId query timeoutSeconds
        durationStr beh).1.error =
      some (timeoutErrorMessage timeoutSeconds durationStr) ∧
    startsWithStr (timeoutErrorMessage timeoutSeconds durationStr)
      "Task timeout after " = true ∧
    strContainsSub (timeoutErrorMessage timeoutSeconds durationStr)
      "timeout" = true ∧
    (∀ beh' : ProcBehavior, beh'.aliveAtDeadline = false →
      beh'.queueResult = none → beh'.resultFileRecord = none →
      (runSingleTaskWithTimeout instanceId taskId query timeoutSeconds
          durationStr beh').1.error = some noResultErrorMessage ∧
      (runSingleTaskWithTimeout instanceId taskId query timeoutSeconds
          durationStr beh').1.timeout = false) ∧
    timeoutErrorMessage timeoutSeconds durationStr ≠ noResultErrorMessage := by
  have hstart : startsWithStr (timeoutErrorMessage timeoutSeconds durationStr)
      "Task timeout after " = true := by
    unfold startsWithStr timeoutErrorMessage
    simp only [String.data_append, List.append_assoc]
    exact prefixMatches_append _ _ _ (prefixMatches_self _)
  refine ⟨?_, ?_, ?_, ?_, ?_, hstart, ?_, ?_, ?_⟩
  · simp [runSingleTaskWithTimeout, halive]
  · simp [runSingleTaskWithTimeout, halive]
  · simp [runSingleTaskWithTimeout, halive]
  · simp [runSingleTaskWithTimeout, halive]
  · simp [runSingleTaskWithTimeout, halive]
  · unfold timeoutErrorMessage
    exact strContainsSub_append_left _ _ _ (strContainsSub_append_left _ _ _
      (strContainsSub_append_left _ _ _ (strContainsSub_append_left _ _ _
        (by decide))))
  · intro beh' h1 h2 h3
    constructor <;> simp [runSingleTaskWithTimeout, h1, h2, h3]
  · intro heq
    rw [heq] at hstart
    exact absurd hstart (by decide)

/-- Witness for C6: a process that survives both the deadline and the grace
period is terminated, killed, and reported as timed out. -/
theorem C6_scheduler_timeout_termination_witness :
    (runSingleTaskWithTimeout "i1" "t1" "q" 3600 "3615.2"
        ⟨true, true, none, none⟩).2 =
      [ProcAction.joinWait 3600, .terminate, .joinWait 10] ++
        (if (ProcBehavior.mk true true none none).aliveAfterTerminate then
          [ProcAction.kill, .joinWait 5] else []) ∧
    (runSingleTaskWithTimeout "i1" "t1" "q" 3600 "3615.2"
        ⟨true, true, none, none⟩).1.timeout = true :=
  ⟨(C6_scheduler_timeout_termination "i1" "t1" "q" 3600 "3615.2"
      ⟨true, true, none, none⟩ (by decide)).1,
    (C6_scheduler_timeout_termination "i1" "t1" "q" 3600 "3615.2"
      ⟨true, true, none, none⟩ (by decide)).2.1⟩

/-- C8: the completed-task check accepts exactly the parsed result files
whose effective answer (`answer or response`) is non-empty, does not start
with `Error:`, and carries none of the residual tool-call markers; absent or
unreadable files and marker-bearing answers are incomplete, and with
skip-completed enabled exactly the incomplete tasks are re-run. -/
theorem C8_completed_task_check :
    (∀ fs : ResultFile, isTaskCompleted fs = true ↔
      ∃ a r s, fs = ResultFile.parsed a r ∧ pyOrStr a r = some s ∧ s ≠ "" ∧
        startsWithStr s "Error:" = false ∧ containsToolTags s = false) ∧
    (∀ examples : List (String × ResultFile),
      tasksToRun examples true =
        examples.filter (fun e => !(isTaskCompleted e.2))) ∧
    (isTaskCompleted (.parsed (some "The capital is Paris.") none) = true ∧
     isTaskCompleted (.parsed (some "Error: connection reset") none) =
       false ∧
     isTaskCompleted
       (.parsed (some "done ```json\n\x7b\"name\": \"tool\"\x7d```") none) =
       false ∧
     isTaskCompleted (.parsed (some "Thought: let me search more") none) =
       false ∧
     isTaskCompleted (.parsed (some "ACTION: search") none) = false ∧
     isTaskCompleted (.parsed (some "Calling tools to continue") none) =
       false ∧
     isTaskCompleted (.parsed (some "") (some "fallback answer")) = true ∧
     isTaskCompleted (.parsed (some "") none) = false ∧
     isTaskCompleted .absent = false ∧
     isTaskCompleted .invalid = false) := by
  refine ⟨?_, fun examples => rfl, ?_⟩
  · intro fs
    constructor
    · intro h
      cases fs with
      | absent => simp [isTaskCompleted] at h
      | invalid => simp [isTaskCompleted] at h
      | parsed a r =>
        have h' : (match pyOrStr a r with
            | none => false
            | some ans =>
              if ans = "" then false
              else if startsWithStr ans "Error:" then false
              else if containsToolTags ans then false
              else true) = true := h
        cases hp : pyOrStr a r with
        | none =>
          rw [hp] at h'
          exact absurd h' (by decide)
        | some s =>
          rw [hp] at h'
          have h'' : (if s = "" then false
              else if startsWithStr s "Error:" then false
              else if containsToolTags s then false
              else true) = true := h'
          split_ifs at h'' with h1 h2 h3
          exact ⟨a, r, s, rfl, hp, h1, by simpa using h2, by simpa using h3⟩
    · rintro ⟨a, r, s, rfl, hp, h1, h2, h3⟩
      show (match pyOrStr a r with
          | none => false
          | some ans =>
            if ans = "" then false
            else if startsWithStr ans "Error:" then false
            else if containsToolTags ans then false
            else true) = true
      rw [hp]
      show (if s = "" then false
          else if startsWithStr s "Error:" then false
          else if containsToolTags s then false
          else true) = true
      simp [h1, h2, h3]
  · refine ⟨?_, ?_, ?_, ?_, ?_, ?_, ?_, ?_, ?_, ?_⟩ <;> decide

/-- Helper: a string built as `"Error: " ++ e` starts with `Error:`. -/
theorem startsWithStr_error_append (e : String) :
    startsWithStr ("Error: " ++ e) "Error:" = true := by
  unfold startsWithStr
  rw [String.data_append]
  exact prefixMatches_append _ _ _ (by decide)

/-- C10: `run_inference` never propagates an exception — a raising agent run
yields the output `"Error: <message>"` — and the per-task result artifact is
written exactly when the final output is non-empty and does not start with
`Error:` (so errored or empty runs leave no persisted file). -/
theorem C10_run_inference_error_handling
    (agentOutcome : Except String (Option String)) (taskId question : String) :
    (∀ e : String, agentOutcome = .error e →
      (runInference agentOutcome taskId question).1 =
        some ("Error: " ++ e) ∧
      (runInference agentOutcome taskId question).2 = none) ∧
    ((runInference agentOutcome taskId question).2 ≠ none ↔
      ∃ s : String, (runInference agentOutcome taskId question).1 = some s ∧
        s ≠ "" ∧ startsWithStr s "Error:" = false) ∧
    (∀ s : String, agentOutcome = .ok (some s) → s ≠ "" →
      startsWithStr s "Error:" = false →
      (runInference agentOutcome taskId question).2 =
        some ⟨taskId, question, some s⟩) := by
  refine ⟨?_, ?_, ?_⟩
  · intro e he
    subst he
    refine ⟨rfl, ?_⟩
    have hsw := startsWithStr_error_append e
    simp [runInference, hsw]
  · cases agentOutcome with
    | error e =>
      have hsw := startsWithStr_error_append e
      constructor
      · intro h
        exact absurd (by simp [runInference, hsw]) h
      · rintro ⟨s, hs, hne, hswf⟩
        simp only [runInference] at hs
        injection hs with hs'
        rw [← hs'] at hswf
        rw [hsw] at hswf
        exact absurd hswf (by decide)
    | ok r =>
      cases r with
      | none =>
        constructor
        · intro h
          exact absurd (by simp [runInference, pyTruthy]) h
        · rintro ⟨s, hs, _, _⟩
          simp [runInference] at hs
      | some s =>
        by_cases hs0 : s = ""
        · subst hs0
          constructor
          · intro h
            exact absurd (by simp [runInference, pyTruthy]) h
          · rintro ⟨s', hs', hne, _⟩
            simp only [runInference] at hs'
            injection hs' with h''
            exact absurd h''.symm hne
        · by_cases hsw : startsWithStr s "Error:" = true
          · constructor
            · intro h
              exact absurd (by simp [runInference, pyTruthy, hsw]) h
            · rintro ⟨s', hs', hne, hswf⟩
              simp only [runInference] at hs'
              injection hs' with h''
              rw [← h''] at hswf
              rw [hsw] at hswf
              exact absurd hswf (by decide)
          · have hswf : startsWithStr s "Error:" = false := by
              simpa using hsw
            constructor
            · intro _
              exact ⟨s, rfl, hs0, hswf⟩
            · intro _
              simp [runInference, pyTruthy, hs0, hswf]
  · intro s hok h1 h2
    subst hok
    have ht : pyTruthy (some s) = true := by
      simp [pyTruthy, h1]
    simp [runInference, ht, h2]

/-- Witness for C10: a raising run returns the error string and persists
nothing; a clean run persists the artifact. -/
theorem C10_run_inference_error_handling_witness :
    ((runInference (Except.error "boom") "t1" "q").1 =
        some ("Error: " ++ "boom") ∧
      (runInference (Except.error "boom") "t1" "q").2 = none) ∧
    (runInference (Except.ok (some "final answer")) "t1" "q").2 =
      some ⟨"t1", "q", some "final answer"⟩ :=
  ⟨(C10_run_inference_error_handling (Except.error "boom") "t1" "q").1
      "boom" rfl,
    (C10_run_inference_error_handling (Except.ok (some "final answer")) "t1"
      "q").2.2 "final answer" rfl (by decide) (by decide)⟩

end MarcoDR
